import Mathlib

/-!
Verification of the Binary Discovery & Resolution Engine surface of the
`claudia` repository, centred on `src/components/ClaudeVersionSelector.tsx`.

The component keeps an in-memory candidate list of `ClaudeInstallation`
records, a currently selected installation, an error slot, and the manual
path input.  Its operations (`loadInstallations`, `handleSelect`,
`addManualInstallation`) and the presentation helper `getSourceLabel` are
embedded below as pure state-transition functions.  External effects are
passed in explicitly: the backend discovery call (`api.listClaudeInstallations`)
is an `Except`-valued input, the backend validator (`api.setClaudeBinaryPath`)
is an `Except`-valued function argument, and the `onSelect` callback is
modelled as the list of installations the caller is notified of during
the call.

JavaScript string primitives used by the component (`trim`, `startsWith`,
single-occurrence `replace`) are re-implemented structurally over `List Char`
so that every definition evaluates inside the kernel.
-/

/-- Whitespace test used by JavaScript `String.prototype.trim` (restricted to
the ASCII whitespace characters that can occur in the strings at hand). -/
def jsIsWhitespace (c : Char) : Bool :=
  c == ' ' || c == '\t' || c == '\n' || c == '\r'

/-- JavaScript `s.trim()`: drop whitespace from both ends of the string. -/
def jsTrim (s : String) : String :=
  ⟨((s.data.dropWhile jsIsWhitespace).reverse.dropWhile jsIsWhitespace).reverse⟩

/-- List-level prefix test, structural so it reduces in the kernel. -/
def isPrefixList : List Char → List Char → Bool
  | _, [] => true
  | [], _ :: _ => false
  | c :: cs, p :: ps => c == p && isPrefixList cs ps

/-- JavaScript `s.startsWith(p)`. -/
def jsStartsWith (s p : String) : Bool :=
  isPrefixList s.data p.data

/-- Replace the first occurrence of `pat` in a character list (JavaScript
`String.prototype.replace` with a string pattern replaces only the first
occurrence, unlike Lean's `String.replace`). -/
def replaceFirstList (pat rep : List Char) : List Char → List Char
  | [] => if isPrefixList [] pat then rep else []
  | c :: cs =>
      if isPrefixList (c :: cs) pat then rep ++ (c :: cs).drop pat.length
      else c :: replaceFirstList pat rep cs

/-- JavaScript `s.replace(pat, rep)` (first occurrence only). -/
def jsReplaceFirst (s pat rep : String) : String :=
  ⟨replaceFirstList pat.data rep.data s.data⟩

/-- Truthiness of an optional string prop: JavaScript `if (selectedPath)`
is false both for `null`/`undefined` and for the empty string. -/
def truthyStr : Option String → Option String
  | none => none
  | some s => if s.data.isEmpty then none else some s

/-- The `ClaudeInstallation` interface of `src/lib/api` as consumed by the
component: a path, an optional version string, and an open source tag. -/
structure ClaudeInstallation where
  path : String
  version : Option String
  source : String
deriving DecidableEq

/-- The component state of `ClaudeVersionSelector` that the engine logic
touches: the candidate list, the loading flag, the error slot, the selected
installation, the manual-path input field, and the validation-in-flight flag. -/
structure SelectorState where
  installations : List ClaudeInstallation
  loading : Bool
  error : Option String
  selectedInstallation : Option ClaudeInstallation
  manualPath : String
  isValidatingManualPath : Bool
deriving DecidableEq

/-- The `useState` initial values of the component. -/
def initialState : SelectorState :=
  { installations := []
    loading := true
    error := none
    selectedInstallation := none
    manualPath := ""
    isValidatingManualPath := false }

/-- `loadInstallations` of `ClaudeVersionSelector.tsx` (lines 78-113).
`selectedPath` is the component prop, `apiResult` the outcome of the awaited
`api.listClaudeInstallations()` call.  Returns the new state together with
the list of installations passed to the `onSelect` callback during the call. -/
def loadInstallations (selectedPath : Option String)
    (apiResult : Except String (List ClaudeInstallation))
    (s : SelectorState) : SelectorState × List ClaudeInstallation :=
  match apiResult with
  | Except.ok foundInstallations =>
      let s1 := { s with loading := false, error := none,
                         installations := foundInstallations }
      match truthyStr selectedPath with
      | some sp =>
          match foundInstallations.find? (fun i => i.path == sp) with
          | some found => ({ s1 with selectedInstallation := some found }, [])
          | none =>
              let manualInstallation : ClaudeInstallation :=
                { path := sp, version := none, source := "manual" }
              ({ s1 with
                  installations := manualInstallation :: foundInstallations,
                  selectedInstallation := some manualInstallation }, [])
      | none =>
          match foundInstallations with
          | [] => (s1, [])
          | first :: _ =>
              ({ s1 with selectedInstallation := some first }, [first])
  | Except.error e =>
      ({ s with loading := false, error := some e }, [])

/-- `handleSelect` of `ClaudeVersionSelector.tsx` (lines 115-118): set the
selected installation and notify the caller.  No validation, no list change. -/
def handleSelect (installation : ClaudeInstallation)
    (s : SelectorState) : SelectorState × List ClaudeInstallation :=
  ({ s with selectedInstallation := some installation }, [installation])

/-- `addManualInstallation` of `ClaudeVersionSelector.tsx` (lines 120-150).
`setClaudeBinaryPath` is the backend validator `api.setClaudeBinaryPath`,
applied to the trimmed path; on success the trimmed path is stored as a
`manual`-sourced installation, entries with the same literal path string are
filtered out, the new entry is prepended, selected, and the caller notified;
on failure only the error slot changes. -/
def addManualInstallation (setClaudeBinaryPath : String → Except String Unit)
    (path : String) (s : SelectorState) : SelectorState × List ClaudeInstallation :=
  if (jsTrim path).data.isEmpty then (s, [])
  else
    match setClaudeBinaryPath (jsTrim path) with
    | Except.ok _ =>
        let manualInstallation : ClaudeInstallation :=
          { path := jsTrim path, version := none, source := "manual" }
        ({ s with
            installations :=
              manualInstallation ::
                s.installations.filter (fun inst => !(inst.path == jsTrim path)),
            selectedInstallation := some manualInstallation,
            manualPath := "",
            isValidatingManualPath := false }, [manualInstallation])
    | Except.error e =>
        ({ s with error := some e, isValidatingManualPath := false }, [])

/-- `getSourceLabel` of `ClaudeVersionSelector.tsx` (lines 185-197): the
presentation mapping from a source tag to its human-readable label, with a
verbatim fallback for unrecognized tags. -/
def getSourceLabel (source : String) : String :=
  if source == "which" then "System PATH"
  else if source == "homebrew" then "Homebrew"
  else if source == "system" then "System"
  else if jsStartsWith source "nvm" then jsReplaceFirst source "nvm " "NVM "
  else if source == "local-bin" then "Local bin"
  else if source == "claude-local" then "Claude local"
  else if source == "npm-global" then "NPM global"
  else if source == "yarn" || source == "yarn-global" then "Yarn"
  else if source == "bun" then "Bun"
  else if source == "manual" then "Manual Selection"
  else source

/-- The candidate list has pairwise-distinct `path` values. -/
abbrev pathsNodup (l : List ClaudeInstallation) : Prop :=
  (l.map (fun i => i.path)).Nodup

/-- A backend validator that accepts every path. -/
def vOk : String → Except String Unit := fun _ => Except.ok ()

/-- A backend validator that rejects every path with the component's
fallback error message. -/
def vErr : String → Except String Unit := fun _ => Except.error "Invalid Claude binary path"

/-- A sample auto-discovered installation found on the system PATH. -/
def instWhich : ClaudeInstallation :=
  { path := "/usr/bin/tool", version := some "1.2.0", source := "which" }

/-- A sample auto-discovered installation from the Homebrew prefix. -/
def instBrew : ClaudeInstallation :=
  { path := "/opt/homebrew/bin/tool", version := some "1.2.0", source := "homebrew" }

/-- A canonicalization map for a host where `/opt/homebrew/bin/claude` is a
symlink to `/usr/local/bin/claude`; every other path is its own canonical form. -/
def canon0 : String → String := fun p =>
  if p == "/opt/homebrew/bin/claude" then "/usr/local/bin/claude" else p

/-- A component state whose candidate list holds one auto-discovered entry at
the Homebrew symlink path. -/
def stateWithBrew : SelectorState :=
  { initialState with
      installations :=
        [{ path := "/opt/homebrew/bin/claude", version := some "1.0.0", source := "homebrew" }] }

/-- Modelled from the spec: the backend discovery routine behind
`api.listClaudeInstallations` is not part of this repository's sources (only
its caller `loadInstallations` is), so its environment is modelled from spec
sections 4.1-4.3 and 5: a fixed list of enumerator outputs (each a sequence of
path/source-tag pairs in that enumerator's discovery order), a validator
mapping a path to `none` (validation failed, candidate excluded) or
`some version?` (accepted, optional version), and a canonicalization
(symlink resolution) map on paths. -/
structure DiscoveryEnv where
  enumerators : List (List (String × String))
  validate : String → Option (Option String)
  canon : String → String

/-- Modelled from the spec: the fixed source-priority total order of spec
section 4.3, over the repository's actual tag vocabulary. -/
def sourcePriority (source : String) : Nat :=
  if source == "which" then 0
  else if source == "homebrew" then 1
  else if source == "system" then 2
  else if jsStartsWith source "nvm" then 3
  else if source == "local-bin" then 4
  else if source == "claude-local" then 5
  else if source == "npm-global" then 6
  else if source == "yarn" || source == "yarn-global" then 7
  else if source == "bun" then 8
  else 9

/-- Attach consecutive indices to a list, starting at `start`: the canonical
slot numbering of concurrently launched tasks. -/
def withIdx {α : Type} (start : Nat) : List α → List (Nat × α)
  | [] => []
  | x :: xs => (start, x) :: withIdx (start + 1) xs

/-- Modelled from the spec: the fan-in point of spec section 5.  Completed
tasks arrive tagged with their launch slot, in arbitrary completion order;
the collector sorts by slot index and discards the tags, so the collected
sequence is the launch-order sequence, independent of arrival order. -/
def fanInSeq {α : Type} (arrivals : List (Nat × α)) : List α :=
  (List.insertionSort (fun x y : Nat × α => x.1 ≤ y.1) arrivals).map Prod.snd

/-- Modelled from the spec: validation of one candidate (spec section 4.2),
producing an Installation on success. -/
def validateOne (env : DiscoveryEnv) (c : String × String) : Option ClaudeInstallation :=
  (env.validate c.1).map (fun v => { path := c.1, version := v, source := c.2 })

/-- Modelled from the spec: ranking (spec section 4.3) as a stable structural
sort by the fixed source priority. -/
def rankInstallations (l : List ClaudeInstallation) : List ClaudeInstallation :=
  List.insertionSort
    (fun a b : ClaudeInstallation => sourcePriority a.source ≤ sourcePriority b.source) l

/-- Modelled from the spec: deduplication by canonical path (spec section
4.3), keeping the first (hence, after ranking, highest-priority) candidate
for each canonical key. -/
def dedupeGo (canon : String → String) (seen : List String) :
    List ClaudeInstallation → List ClaudeInstallation
  | [] => []
  | i :: rest =>
      if seen.contains (canon i.path) then dedupeGo canon seen rest
      else i :: dedupeGo canon (canon i.path :: seen) rest

/-- Modelled from the spec: deduplication by canonical path over a whole list. -/
def dedupeByCanon (canon : String → String) (l : List ClaudeInstallation) :
    List ClaudeInstallation :=
  dedupeGo canon [] l

/-- Modelled from the spec: the candidate set collected at the enumerator
fan-in point, given the slot-tagged completion order of the enumerator tasks. -/
def collectCandidates (enumArrival : List (Nat × List (String × String))) :
    List (String × String) :=
  (fanInSeq enumArrival).flatten

/-- Modelled from the spec: the tail of a discovery pass after the validator
fan-in point.  `valArrival` is the slot-tagged completion order of the
per-candidate validator tasks; ranking and deduplication run only on the
fanned-in results, never on arrival order. -/
def discoverWithArrivals (env : DiscoveryEnv)
    (valArrival : List (Nat × Option ClaudeInstallation)) : List ClaudeInstallation :=
  dedupeByCanon env.canon (rankInstallations ((fanInSeq valArrival).filterMap id))

/-- Modelled from the spec: the discovery pass as a pure function of the
environment snapshot (enumerators in launch order, each candidate validated
in order, then ranked and deduplicated). -/
def discover (env : DiscoveryEnv) : List ClaudeInstallation :=
  dedupeByCanon env.canon (rankInstallations
    ((env.enumerators.flatten.map (validateOne env)).filterMap id))

/-- A sample discovery environment: two enumerators (PATH search and
Homebrew), every candidate validating to version 1.2.0, trivial
canonicalization. -/
def env0 : DiscoveryEnv :=
  { enumerators := [[("/usr/bin/tool", "which")], [("/opt/homebrew/bin/tool", "homebrew")]]
    validate := fun _ => some (some "1.2.0")
    canon := fun p => p }

/-- An enumerator completion order for `env0` in which the Homebrew
enumerator finishes before the PATH one. -/
def ea0 : List (Nat × List (String × String)) :=
  [(1, [("/opt/homebrew/bin/tool", "homebrew")]), (0, [("/usr/bin/tool", "which")])]

/-- The launch-order (slot-sorted) enumerator arrival for `env0`. -/
def ea1 : List (Nat × List (String × String)) :=
  withIdx 0 env0.enumerators

/-- The canonical validator arrival for the candidates collected from `ea0`. -/
def va0 : List (Nat × Option ClaudeInstallation) :=
  withIdx 0 ((collectCandidates ea0).map (validateOne env0))

/-- The canonical validator arrival for the candidates collected from `ea1`. -/
def va1 : List (Nat × Option ClaudeInstallation) :=
  withIdx 0 ((collectCandidates ea1).map (validateOne env0))

theorem withIdx_map_snd {α : Type} : ∀ (start : Nat) (l : List α),
    (withIdx start l).map Prod.snd = l := by
  intro start l
  induction l generalizing start with
  | nil => rfl
  | cons x xs ih => simp [withIdx, ih]

theorem withIdx_key_ge {α : Type} : ∀ (start : Nat) (l : List α),
    ∀ y ∈ withIdx start l, start ≤ y.1 := by
  intro start l
  induction l generalizing start with
  | nil => intro y hy; cases hy
  | cons x xs ih =>
      intro y hy
      rw [withIdx] at hy
      rcases List.mem_cons.mp hy with rfl | hy
      · exact Nat.le_refl _
      · exact Nat.le_of_succ_le (ih (start + 1) y hy)

theorem withIdx_pairwise_lt {α : Type} : ∀ (start : Nat) (l : List α),
    List.Pairwise (fun a b : Nat × α => a.1 < b.1) (withIdx start l) := by
  intro start l
  induction l generalizing start with
  | nil => exact List.Pairwise.nil
  | cons x xs ih =>
      refine List.Pairwise.cons ?_ (ih (start + 1))
      intro y hy
      exact Nat.lt_of_succ_le (withIdx_key_ge (start + 1) xs y hy)

theorem fanInSeq_of_perm {α : Type} (l : List α) (arrival : List (Nat × α))
    (h : List.Perm arrival (withIdx 0 l)) : fanInSeq arrival = l := by
  haveI : IsTotal (Nat × α) (fun x y : Nat × α => x.1 ≤ y.1) :=
    ⟨fun a b => Nat.le_total a.1 b.1⟩
  haveI : IsTrans (Nat × α) (fun x y : Nat × α => x.1 ≤ y.1) :=
    ⟨fun _ _ _ hab hbc => Nat.le_trans hab hbc⟩
  haveI : IsAntisymm (Nat × α) (fun x y : Nat × α => x.1 < y.1) :=
    ⟨fun a b h1 h2 => absurd (Nat.lt_trans h1 h2) (Nat.lt_irrefl _)⟩
  set s := List.insertionSort (fun x y : Nat × α => x.1 ≤ y.1) arrival with hs
  have hperm : List.Perm s (withIdx 0 l) :=
    (List.perm_insertionSort _ arrival).trans h
  have hkeys : List.Pairwise (fun a b : Nat × α => a.1 ≠ b.1) s := by
    have hw : (List.map Prod.fst (withIdx 0 l)).Nodup := by
      exact List.pairwise_map.mpr
        ((withIdx_pairwise_lt 0 l).imp (fun hab => Nat.ne_of_lt hab))
    have hnd : (List.map Prod.fst s).Nodup :=
      ((hperm.map Prod.fst).nodup_iff).mpr hw
    exact List.pairwise_map.mp hnd
  have hsorted_le : List.Pairwise (fun x y : Nat × α => x.1 ≤ y.1) s :=
    List.sorted_insertionSort _ arrival
  have hsorted_lt : List.Sorted (fun x y : Nat × α => x.1 < y.1) s :=
    (hsorted_le.and hkeys).imp
      (fun hab => Nat.lt_of_le_of_ne hab.1 hab.2)
  have hwsorted : List.Sorted (fun x y : Nat × α => x.1 < y.1) (withIdx 0 l) :=
    withIdx_pairwise_lt 0 l
  have : s = withIdx 0 l := List.eq_of_perm_of_sorted hperm hsorted_lt hwsorted
  calc fanInSeq arrival = s.map Prod.snd := rfl
    _ = (withIdx 0 l).map Prod.snd := by rw [this]
    _ = l := withIdx_map_snd 0 l

theorem dedupeGo_sublist (canon : String → String) :
    ∀ (l : List ClaudeInstallation) (seen : List String),
      List.Sublist (dedupeGo canon seen l) l := by
  intro l
  induction l with
  | nil => intro seen; simp [dedupeGo]
  | cons i rest ih =>
      intro seen
      rw [dedupeGo]
      by_cases h : seen.contains (canon i.path)
      · rw [if_pos h]
        exact List.Sublist.cons i (ih seen)
      · rw [if_neg h]
        exact List.Sublist.cons₂ i (ih (canon i.path :: seen))

theorem discover_sorted (env : DiscoveryEnv) :
    List.Pairwise
      (fun a b : ClaudeInstallation => sourcePriority a.source ≤ sourcePriority b.source)
      (discover env) := by
  haveI : IsTotal ClaudeInstallation
      (fun a b : ClaudeInstallation => sourcePriority a.source ≤ sourcePriority b.source) :=
    ⟨fun a b => Nat.le_total _ _⟩
  haveI : IsTrans ClaudeInstallation
      (fun a b : ClaudeInstallation => sourcePriority a.source ≤ sourcePriority b.source) :=
    ⟨fun _ _ _ hab hbc => Nat.le_trans hab hbc⟩
  have hsorted :
      List.Pairwise
        (fun a b : ClaudeInstallation => sourcePriority a.source ≤ sourcePriority b.source)
        (rankInstallations ((env.enumerators.flatten.map (validateOne env)).filterMap id)) :=
    List.sorted_insertionSort _ _
  exact List.Pairwise.sublist (dedupeGo_sublist env.canon _ []) hsorted

/-- C9: `handleSelect` sets the Selected Installation to exactly the given
value, modifies neither the candidate list nor the error slot, notifies the
caller, and always succeeds; it takes no validator, so none can be invoked. -/
theorem claudia_C9 (installation : ClaudeInstallation) (s : SelectorState) :
    (handleSelect installation s).1.selectedInstallation = some installation
    ∧ (handleSelect installation s).1.installations = s.installations
    ∧ (handleSelect installation s).1.error = s.error
    ∧ (handleSelect installation s).2 = [installation] :=
  ⟨rfl, rfl, rfl, rfl⟩

/-- C10: a whitespace-only manual path is a complete no-op — the state is
returned unchanged, nobody is notified, and the outcome does not depend on
the validator at all (it is never invoked); for a path with nonempty trimmed
form that validates, the stored installation's path is the trimmed string. -/
theorem claudia_C10 (valA valB : String → Except String Unit) (p q : String)
    (s : SelectorState)
    (hp : (jsTrim p).data.isEmpty = true)
    (hq : (jsTrim q).data.isEmpty = false)
    (hqok : valA (jsTrim q) = Except.ok ()) :
    addManualInstallation valA p s = (s, [])
    ∧ addManualInstallation valA p s = addManualInstallation valB p s
    ∧ (addManualInstallation valA q s).1.installations.head?.map (fun i => i.path)
        = some (jsTrim q) := by
  refine ⟨?_, ?_, ?_⟩
  · simp [addManualInstallation, hp]
  · simp [addManualInstallation, hp]
  · simp [addManualInstallation, hq, hqok]

/-- C10 witness: the no-op and trimming behavior at concrete inputs. -/
theorem claudia_C10_witness :
    (jsTrim "   ").data.isEmpty = true
    ∧ (jsTrim " /usr/local/bin/claude ").data.isEmpty = false
    ∧ vOk (jsTrim " /usr/local/bin/claude ") = Except.ok ()
    ∧ (addManualInstallation vOk "   " initialState = (initialState, [])
        ∧ addManualInstallation vOk "   " initialState
            = addManualInstallation vErr "   " initialState
        ∧ (addManualInstallation vOk " /usr/local/bin/claude " initialState).1.installations.head?.map
              (fun i => i.path)
            = some (jsTrim " /usr/local/bin/claude ")) :=
  ⟨by decide, by decide, rfl,
    claudia_C10 vOk vErr "   " " /usr/local/bin/claude " initialState
      (by decide) (by decide) rfl⟩

/-- C3: when the backend validator rejects the trimmed path, the candidate
list, the selected installation, and the manual-path field are all exactly as
before the call, nobody is notified, and the failure is surfaced in the
error slot. -/
theorem claudia_C3 (validate : String → Except String Unit) (p e : String)
    (s : SelectorState)
    (hp : (jsTrim p).data.isEmpty = false)
    (herr : validate (jsTrim p) = Except.error e) :
    (addManualInstallation validate p s).1.installations = s.installations
    ∧ (addManualInstallation validate p s).1.selectedInstallation = s.selectedInstallation
    ∧ (addManualInstallation validate p s).1.manualPath = s.manualPath
    ∧ (addManualInstallation validate p s).1.error = some e
    ∧ (addManualInstallation validate p s).2 = [] := by
  simp [addManualInstallation, hp, herr]

/-- C3 witness: `setManualPath "/tmp/not-a-file"` against an
always-rejecting validator leaves list and selection unchanged. -/
theorem claudia_C3_witness :
    (jsTrim "/tmp/not-a-file").data.isEmpty = false
    ∧ vErr (jsTrim "/tmp/not-a-file") = Except.error "Invalid Claude binary path"
    ∧ ((addManualInstallation vErr "/tmp/not-a-file" stateWithBrew).1.installations
          = stateWithBrew.installations
        ∧ (addManualInstallation vErr "/tmp/not-a-file" stateWithBrew).1.selectedInstallation
            = stateWithBrew.selectedInstallation
        ∧ (addManualInstallation vErr "/tmp/not-a-file" stateWithBrew).1.manualPath
            = stateWithBrew.manualPath
        ∧ (addManualInstallation vErr "/tmp/not-a-file" stateWithBrew).1.error
            = some "Invalid Claude binary path"
        ∧ (addManualInstallation vErr "/tmp/not-a-file" stateWithBrew).2 = []) :=
  ⟨by decide, rfl,
    claudia_C3 vErr "/tmp/not-a-file" "Invalid Claude binary path" stateWithBrew
      (by decide) rfl⟩

/-- C4: with no (truthy) persisted selected path and a non-empty discovery
result, the first installation of the result becomes the selection, the
caller is explicitly notified of the auto-pick, and the list is the result
itself. -/
theorem claudia_C4 (selectedPath : Option String) (first : ClaudeInstallation)
    (rest : List ClaudeInstallation) (s : SelectorState)
    (hfalsy : truthyStr selectedPath = none) :
    (loadInstallations selectedPath (Except.ok (first :: rest)) s).1.selectedInstallation
        = some first
    ∧ (loadInstallations selectedPath (Except.ok (first :: rest)) s).2 = [first]
    ∧ (loadInstallations selectedPath (Except.ok (first :: rest)) s).1.installations
        = first :: rest := by
  simp [loadInstallations, hfalsy]

/-- C4 witness: the spec's concrete scenario — PATH and Homebrew candidates,
no persisted path — auto-selects and reports `/usr/bin/tool`. -/
theorem claudia_C4_witness :
    truthyStr none = none
    ∧ ((loadInstallations none (Except.ok [instWhich, instBrew]) initialState).1.selectedInstallation
          = some instWhich
        ∧ (loadInstallations none (Except.ok [instWhich, instBrew]) initialState).2 = [instWhich]
        ∧ (loadInstallations none (Except.ok [instWhich, instBrew]) initialState).1.installations
            = [instWhich, instBrew]) :=
  ⟨rfl, claudia_C4 none instWhich [instBrew] initialState rfl⟩

/-- C2: after a discovery pass with a (truthy) persisted selected path, a
result entry with that exact path becomes the selection and the list is the
result itself (no synthesized duplicate); when no entry matches, a
`manual`-sourced installation with that path and absent version is
prepended and selected. -/
theorem claudia_C2 (sp : String) (found : List ClaudeInstallation) (s : SelectorState)
    (hsp : sp.data.isEmpty = false) :
    (∀ inst, found.find? (fun i => i.path == sp) = some inst →
        (loadInstallations (some sp) (Except.ok found) s).1.installations = found
        ∧ (loadInstallations (some sp) (Except.ok found) s).1.selectedInstallation = some inst)
    ∧ (found.find? (fun i => i.path == sp) = none →
        (loadInstallations (some sp) (Except.ok found) s).1.installations
            = { path := sp, version := none, source := "manual" } :: found
        ∧ (loadInstallations (some sp) (Except.ok found) s).1.selectedInstallation
            = some { path := sp, version := none, source := "manual" }) := by
  constructor
  · intro inst hfind
    constructor
    · simp [loadInstallations, truthyStr, hsp, hfind]
    · simp [loadInstallations, truthyStr, hsp, hfind]
  · intro hfind
    constructor
    · simp [loadInstallations, truthyStr, hsp, hfind]
    · simp [loadInstallations, truthyStr, hsp, hfind]

/-- C2 witness: with result `[instWhich, instBrew]`, persisted path
`/usr/bin/tool` selects the discovered entry itself; persisted path
`/home/user/claude` synthesizes a manual entry. -/
theorem claudia_C2_witness :
    ("/usr/bin/tool" : String).data.isEmpty = false
    ∧ [instWhich, instBrew].find? (fun i => i.path == "/usr/bin/tool") = some instWhich
    ∧ ((loadInstallations (some "/usr/bin/tool") (Except.ok [instWhich, instBrew]) initialState).1.installations
          = [instWhich, instBrew]
        ∧ (loadInstallations (some "/usr/bin/tool") (Except.ok [instWhich, instBrew]) initialState).1.selectedInstallation
            = some instWhich)
    ∧ ((loadInstallations (some "/home/user/claude") (Except.ok [instWhich, instBrew]) initialState).1.installations
          = { path := "/home/user/claude", version := none, source := "manual" }
              :: [instWhich, instBrew]
        ∧ (loadInstallations (some "/home/user/claude") (Except.ok [instWhich, instBrew]) initialState).1.selectedInstallation
            = some { path := "/home/user/claude", version := none, source := "manual" }) :=
  ⟨by decide, by decide,
    (claudia_C2 "/usr/bin/tool" [instWhich, instBrew] initialState (by decide)).1
      instWhich (by decide),
    (claudia_C2 "/home/user/claude" [instWhich, instBrew] initialState (by decide)).2
      (by decide)⟩

/-- C1 counterexample: on a host where `/opt/homebrew/bin/claude` is a
symlink to `/usr/local/bin/claude` (canonicalization `canon0`), submitting
the manual path `" /usr/local/bin/claude "` (which validates) leaves the
existing symlink entry in place — the filter compares literal path strings,
not canonical paths — so the list holds two entries with one canonical path,
and the stored path is the trimmed string, not the submitted one. -/
theorem claudia_C1_counterexample :
    ¬ (((addManualInstallation vOk " /usr/local/bin/claude " stateWithBrew).1.installations.map
          (fun i => canon0 i.path)).Nodup)
    ∧ ((addManualInstallation vOk " /usr/local/bin/claude " stateWithBrew).1.installations.map
          (fun i => i.path)) = ["/usr/local/bin/claude", "/opt/homebrew/bin/claude"] := by
  constructor
  · decide
  · decide

/-- C1 amended: for every path whose trimmed form is nonempty and passes
validation, `addManualInstallation` builds a `manual`-sourced installation
whose path is the trimmed input, removes every existing entry with the same
literal path string, prepends the new entry, selects it, and notifies the
caller; exactly one entry with that path string remains in the list. -/
theorem claudia_C1 (validate : String → Except String Unit) (p : String)
    (s : SelectorState)
    (hp : (jsTrim p).data.isEmpty = false)
    (hok : validate (jsTrim p) = Except.ok ()) :
    (addManualInstallation validate p s).1.installations
        = { path := jsTrim p, version := none, source := "manual" }
            :: s.installations.filter (fun inst => !(inst.path == jsTrim p))
    ∧ (addManualInstallation validate p s).1.selectedInstallation
        = some { path := jsTrim p, version := none, source := "manual" }
    ∧ (addManualInstallation validate p s).2
        = [{ path := jsTrim p, version := none, source := "manual" }]
    ∧ (addManualInstallation validate p s).1.installations.countP
        (fun inst => inst.path == jsTrim p) = 1 := by
  have hlist : (addManualInstallation validate p s).1.installations
      = { path := jsTrim p, version := none, source := "manual" }
          :: s.installations.filter (fun inst => !(inst.path == jsTrim p)) := by
    simp [addManualInstallation, hp, hok]
  refine ⟨hlist, ?_, ?_, ?_⟩
  · simp [addManualInstallation, hp, hok]
  · simp [addManualInstallation, hp, hok]
  · rw [hlist, List.countP_cons_of_pos _ _ (by simp), List.countP_filter]
    simp

/-- C1 witness: the amended behavior at the concrete symlink scenario. -/
theorem claudia_C1_witness :
    (jsTrim " /usr/local/bin/claude ").data.isEmpty = false
    ∧ vOk (jsTrim " /usr/local/bin/claude ") = Except.ok ()
    ∧ ((addManualInstallation vOk " /usr/local/bin/claude " stateWithBrew).1.installations
          = { path := jsTrim " /usr/local/bin/claude ", version := none, source := "manual" }
              :: stateWithBrew.installations.filter
                  (fun inst => !(inst.path == jsTrim " /usr/local/bin/claude "))
        ∧ (addManualInstallation vOk " /usr/local/bin/claude " stateWithBrew).1.selectedInstallation
            = some { path := jsTrim " /usr/local/bin/claude ", version := none, source := "manual" }
        ∧ (addManualInstallation vOk " /usr/local/bin/claude " stateWithBrew).2
            = [{ path := jsTrim " /usr/local/bin/claude ", version := none, source := "manual" }]
        ∧ (addManualInstallation vOk " /usr/local/bin/claude " stateWithBrew).1.installations.countP
            (fun inst => inst.path == jsTrim " /usr/local/bin/claude ") = 1) :=
  ⟨by decide, rfl,
    claudia_C1 vOk " /usr/local/bin/claude " stateWithBrew (by decide) rfl⟩

/-- C5: literal path uniqueness is an invariant of the candidate list —
assuming the discovery result has pairwise-distinct paths, both
`loadInstallations` (all branches: reuse of the result, synthesis of the
persisted-path entry, auto-select, error) and `addManualInstallation`
(no-op, success, failure) preserve it. -/
theorem claudia_C5 :
    (∀ (selectedPath : Option String)
        (apiResult : Except String (List ClaudeInstallation)) (s : SelectorState),
        pathsNodup s.installations →
        (∀ found, apiResult = Except.ok found → pathsNodup found) →
        pathsNodup (loadInstallations selectedPath apiResult s).1.installations)
    ∧ (∀ (validate : String → Except String Unit) (p : String) (s : SelectorState),
        pathsNodup s.installations →
        pathsNodup (addManualInstallation validate p s).1.installations) := by
  constructor
  · intro selectedPath apiResult s hs hok
    match apiResult with
    | Except.error e => simpa [loadInstallations] using hs
    | Except.ok found =>
        have hf : pathsNodup found := hok found rfl
        match htr : truthyStr selectedPath with
        | none =>
            match found, hf with
            | [], _ => simp [loadInstallations, htr, pathsNodup]
            | first :: rest, hf => simpa [loadInstallations, htr] using hf
        | some sp =>
            match hfind : found.find? (fun i => i.path == sp) with
            | some inst => simpa [loadInstallations, htr, hfind] using hf
            | none =>
                have hnotmem : sp ∉ found.map (fun i => i.path) := by
                  intro hmem
                  rcases List.mem_map.mp hmem with ⟨inst, hinst, hpath⟩
                  have := List.find?_eq_none.mp hfind inst hinst
                  simp [hpath] at this
                simp only [loadInstallations, htr, hfind]
                exact List.Nodup.cons hnotmem hf
  · intro validate p s hs
    by_cases hp : (jsTrim p).data.isEmpty
    · simpa [addManualInstallation, hp] using hs
    · match hv : validate (jsTrim p) with
      | Except.error e => simpa [addManualInstallation, hp, hv] using hs
      | Except.ok _ =>
          have hsub : pathsNodup
              (s.installations.filter (fun inst => !(inst.path == jsTrim p))) :=
            List.Nodup.sublist
              (List.Sublist.map _ (List.filter_sublist s.installations)) hs
          have hnotmem : jsTrim p ∉
              (s.installations.filter (fun inst => !(inst.path == jsTrim p))).map
                (fun i => i.path) := by
            intro hmem
            rcases List.mem_map.mp hmem with ⟨inst, hinst, hpath⟩
            have := (List.mem_filter.mp hinst).2
            simp [hpath] at this
          have hgoal : pathsNodup
              ({ path := jsTrim p, version := none, source := "manual" } ::
                s.installations.filter (fun inst => !(inst.path == jsTrim p))) := by
            show (List.map (fun i => i.path)
                ({ path := jsTrim p, version := none, source := "manual" } ::
                  s.installations.filter (fun inst => !(inst.path == jsTrim p)))).Nodup
            rw [List.map_cons]
            exact List.Nodup.cons hnotmem hsub
          simpa [addManualInstallation, hp, hv] using hgoal

/-- C5 witness: the add-manual branch of the invariant at a concrete state. -/
theorem claudia_C5_witness :
    pathsNodup stateWithBrew.installations
    ∧ pathsNodup
        (addManualInstallation vOk "/usr/local/bin/claude" stateWithBrew).1.installations :=
  ⟨by decide,
    claudia_C5.2 vOk "/usr/local/bin/claude" stateWithBrew (by decide)⟩

/-- C6 counterexample: in an environment with zero discoverable
installations but with a persisted selected path, the engine does not end
with an empty candidate list — `loadInstallations` synthesizes a manual
entry for the persisted path and prepends it. -/
theorem claudia_C6_counterexample :
    (loadInstallations (some "/home/user/claude") (Except.ok []) initialState).1.installations
      ≠ [] := by
  decide

/-- C6 amended: with zero discoverable installations and no persisted
selected path the candidate list ends empty, and when the discovery call
fails with an error the list is left unchanged (empty at startup) with the
error surfaced; both outcomes are ordinary return values of a total
function, so no exception escapes, and in either ending state a subsequent
valid manual submission is accepted, stored alone in the list, and becomes
the selection. -/
theorem claudia_C6 (e p : String) (validate : String → Except String Unit)
    (hp : (jsTrim p).data.isEmpty = false)
    (hok : validate (jsTrim p) = Except.ok ()) :
    (loadInstallations none (Except.ok []) initialState).1.installations = []
    ∧ (loadInstallations none (Except.error e) initialState).1.installations = []
    ∧ (loadInstallations none (Except.error e) initialState).1.error = some e
    ∧ (addManualInstallation validate p
          (loadInstallations none (Except.ok []) initialState).1).1.installations
        = [{ path := jsTrim p, version := none, source := "manual" }]
    ∧ (addManualInstallation validate p
          (loadInstallations none (Except.ok []) initialState).1).1.selectedInstallation
        = some { path := jsTrim p, version := none, source := "manual" }
    ∧ (addManualInstallation validate p
          (loadInstallations none (Except.error e) initialState).1).1.installations
        = [{ path := jsTrim p, version := none, source := "manual" }] := by
  refine ⟨rfl, rfl, rfl, ?_, ?_, ?_⟩
  · simp [loadInstallations, addManualInstallation, initialState, truthyStr, hp, hok]
  · simp [loadInstallations, addManualInstallation, initialState, truthyStr, hp, hok]
  · simp [loadInstallations, addManualInstallation, initialState, truthyStr, hp, hok]

/-- C6 witness: empty discovery and failed discovery at startup, followed by
a valid manual submission of `/usr/local/bin/claude`. -/
theorem claudia_C6_witness :
    (jsTrim "/usr/local/bin/claude").data.isEmpty = false
    ∧ vOk (jsTrim "/usr/local/bin/claude") = Except.ok ()
    ∧ ((loadInstallations none (Except.ok []) initialState).1.installations = []
        ∧ (loadInstallations none (Except.error "spawn failed") initialState).1.installations = []
        ∧ (loadInstallations none (Except.error "spawn failed") initialState).1.error
            = some "spawn failed"
        ∧ (addManualInstallation vOk "/usr/local/bin/claude"
              (loadInstallations none (Except.ok []) initialState).1).1.installations
            = [{ path := jsTrim "/usr/local/bin/claude", version := none, source := "manual" }]
        ∧ (addManualInstallation vOk "/usr/local/bin/claude"
              (loadInstallations none (Except.ok []) initialState).1).1.selectedInstallation
            = some { path := jsTrim "/usr/local/bin/claude", version := none, source := "manual" }
        ∧ (addManualInstallation vOk "/usr/local/bin/claude"
              (loadInstallations none (Except.error "spawn failed") initialState).1).1.installations
            = [{ path := jsTrim "/usr/local/bin/claude", version := none, source := "manual" }]) :=
  ⟨by decide, rfl,
    claudia_C6 "spawn failed" "/usr/local/bin/claude" vOk (by decide) rfl⟩

/-- C8 counterexample: the repository's tag vocabulary does not contain
`source-path` or `ecosystem-local` — `getSourceLabel` treats both as
unrecognized fallbacks, while the tag it renders as "System PATH" is
`which` and the tag it renders for the ecosystem-local cache is
`claude-local`. -/
theorem claudia_C8_counterexample :
    getSourceLabel "source-path" = "source-path"
    ∧ getSourceLabel "source-path" ≠ "System PATH"
    ∧ getSourceLabel "which" = "System PATH"
    ∧ getSourceLabel "ecosystem-local" = "ecosystem-local"
    ∧ getSourceLabel "ecosystem-local" ≠ "Claude local"
    ∧ getSourceLabel "claude-local" = "Claude local" := by
  refine ⟨by decide, by decide, by decide, by decide, by decide, by decide⟩

/-- C8 amended: the tag vocabulary recognized by the presentation layer is
`which` (system PATH search), `homebrew`, `system`, `nvm`-prefixed tags
(version-manager installs, one per runtime version), `local-bin`,
`claude-local` (the ecosystem-local cache directory), `npm-global`, `yarn`,
`yarn-global`, `bun`, and `manual`; any other tag is not a member of a
closed enum but falls through and is displayed verbatim. -/
theorem claudia_C8 :
    getSourceLabel "which" = "System PATH"
    ∧ getSourceLabel "homebrew" = "Homebrew"
    ∧ getSourceLabel "system" = "System"
    ∧ getSourceLabel "nvm 18.0.0" = "NVM 18.0.0"
    ∧ getSourceLabel "local-bin" = "Local bin"
    ∧ getSourceLabel "claude-local" = "Claude local"
    ∧ getSourceLabel "npm-global" = "NPM global"
    ∧ getSourceLabel "yarn" = "Yarn"
    ∧ getSourceLabel "yarn-global" = "Yarn"
    ∧ getSourceLabel "bun" = "Bun"
    ∧ getSourceLabel "manual" = "Manual Selection"
    ∧ getSourceLabel "mystery-tag" = "mystery-tag" := by
  refine ⟨by decide, by decide, by decide, by decide, by decide, by decide,
    by decide, by decide, by decide, by decide, by decide, by decide⟩

/-- C7: discovery is deterministic — for a fixed environment snapshot, any
two passes agree, whatever the completion order of the enumerator tasks and
of the per-candidate validator tasks (both modelled as arbitrary
permutations of the slot-tagged canonical task lists); the result equals
the pure launch-order computation, and it is ordered by the fixed source
priority because ranking runs only on the fanned-in results. -/
theorem claudia_C7 (env : DiscoveryEnv)
    (eaA eaB : List (Nat × List (String × String)))
    (vaA vaB : List (Nat × Option ClaudeInstallation))
    (heA : List.Perm eaA (withIdx 0 env.enumerators))
    (heB : List.Perm eaB (withIdx 0 env.enumerators))
    (hvA : List.Perm vaA (withIdx 0 ((collectCandidates eaA).map (validateOne env))))
    (hvB : List.Perm vaB (withIdx 0 ((collectCandidates eaB).map (validateOne env)))) :
    discoverWithArrivals env vaA = discover env
    ∧ discoverWithArrivals env vaB = discover env
    ∧ discoverWithArrivals env vaA = discoverWithArrivals env vaB
    ∧ List.Pairwise
        (fun a b : ClaudeInstallation => sourcePriority a.source ≤ sourcePriority b.source)
        (discover env) := by
  have key : ∀ (ea : List (Nat × List (String × String)))
      (va : List (Nat × Option ClaudeInstallation)),
      List.Perm ea (withIdx 0 env.enumerators) →
      List.Perm va (withIdx 0 ((collectCandidates ea).map (validateOne env))) →
      discoverWithArrivals env va = discover env := by
    intro ea va he hv
    have h1 : fanInSeq ea = env.enumerators := fanInSeq_of_perm _ _ he
    have h2 : fanInSeq va = (collectCandidates ea).map (validateOne env) :=
      fanInSeq_of_perm _ _ hv
    rw [discoverWithArrivals, h2, collectCandidates, h1, discover]
  have kA := key eaA vaA heA hvA
  have kB := key eaB vaB heB hvB
  exact ⟨kA, kB, kA.trans kB.symm, discover_sorted env⟩

/-- C7 witness: in `env0`, the scrambled enumerator arrival `ea0` with a
reversed validator arrival agrees with the launch-order arrival `ea1`. -/
theorem claudia_C7_witness :
    List.Perm ea0 (withIdx 0 env0.enumerators)
    ∧ List.Perm ea1 (withIdx 0 env0.enumerators)
    ∧ List.Perm va0.reverse (withIdx 0 ((collectCandidates ea0).map (validateOne env0)))
    ∧ List.Perm va1 (withIdx 0 ((collectCandidates ea1).map (validateOne env0)))
    ∧ (discoverWithArrivals env0 va0.reverse = discover env0
        ∧ discoverWithArrivals env0 va1 = discover env0
        ∧ discoverWithArrivals env0 va0.reverse = discoverWithArrivals env0 va1
        ∧ List.Pairwise
            (fun a b : ClaudeInstallation => sourcePriority a.source ≤ sourcePriority b.source)
            (discover env0)) :=
  ⟨by decide, by decide, by decide, by decide,
    claudia_C7 env0 ea0 ea1 va0.reverse va1
      (by decide) (by decide) (by decide) (by decide)⟩
